import Mathlib

/-!
Shallow embedding of the inquiry-lifecycle and request-security core of the
`guiling-web/web1` marketplace backend, together with proofs of the spec's
testable properties.  Mongoose documents are modelled as Lean structures,
monetary values as exact rationals, timestamps as natural-number
milliseconds, and JS object mutation as explicit state passing: every
operation returns both its result and the post-state of the mutated
document, so "the inquiry is left unchanged" is a statement about the second
component.
-/

namespace Web1

/-! ### Inquiry data model (src/models/Inquiry.js) -/

/-- The `status` enumeration of the inquiry schema. -/
inductive Status
  | pending
  | responded
  | accepted
  | rejected
  | completed
  | cancelled
deriving DecidableEq, Repr

/-- The `response` sub-document of an inquiry. -/
structure ResponseRec where
  message : String
  price : ℚ
  deliveryTime : String
  respondedAt : ℕ
deriving DecidableEq, Repr

/-- The buyer-contact snapshot stored on an inquiry. -/
structure BuyerContact where
  phone : String
  email : String
deriving DecidableEq, Repr

/-- An inquiry document.  Object ids are opaque strings; `createdAt` is a
millisecond timestamp supplied by the environment. -/
structure Inquiry where
  id : String
  product : String
  buyer : String
  seller : String
  quantity : ℚ
  message : String
  status : Status
  buyerContact : BuyerContact
  response : Option ResponseRec
  expectedPrice : Option ℚ
  createdAt : ℕ
deriving DecidableEq, Repr

/-- Errors thrown by the inquiry instance methods. -/
inductive InquiryError
  | invalidTransition
  | alreadyResponded
deriving DecidableEq, Repr

/-- JS `Math.round`: round half toward positive infinity.  On rationals
this is `⌊x + 1/2⌋`, which is exactly Mathlib's `round`. -/
def jsRound (x : ℚ) : ℤ := round x

/-- Rounding a price to two decimals, `Math.round(x * 100) / 100`. -/
def round2 (x : ℚ) : ℚ := (jsRound (x * 100) : ℚ) / 100

/-- The `pre('save')` hook of the inquiry schema: round `expectedPrice` and
`response.price` to two decimals and floor `quantity`, each guarded by JS
truthiness (a `0` value is falsy and skipped — extensionally harmless since
`0` is already normalized). -/
def preSave (i : Inquiry) : Inquiry :=
  let ep := i.expectedPrice.map (fun p => if p ≠ 0 then round2 p else p)
  let resp := i.response.map (fun r =>
    if r.price ≠ 0 then { r with price := round2 r.price } else r)
  let q := if i.quantity ≠ 0 then (⌊i.quantity⌋ : ℚ) else i.quantity
  { i with expectedPrice := ep, response := resp, quantity := q }

/-- The transition table of `updateStatus`, transcribed from the source. -/
def validTransitions : Status → List Status
  | .pending => [.responded, .cancelled]
  | .responded => [.accepted, .rejected, .completed]
  | .accepted => [.completed, .cancelled]
  | .rejected => [.cancelled]
  | .completed => []
  | .cancelled => []

/-- Instance method `updateStatus(newStatus)`: throw before any mutation if
the target is not allowed from the current status, otherwise set the status
and save (running the pre-save hook).  The second component is the state of
the document after the call. -/
def updateStatus (i : Inquiry) (newStatus : Status) :
    Except InquiryError Inquiry × Inquiry :=
  if newStatus ∈ validTransitions i.status then
    let i' := preSave { i with status := newStatus }
    (.ok i', i')
  else
    (.error .invalidTransition, i)

/-- The payload of a seller's response. -/
structure ResponseData where
  message : String
  price : ℚ
  deliveryTime : String
deriving DecidableEq, Repr

/-- Instance method `respondToInquiry(responseData)`: throw unless the
status is exactly `pending`; otherwise set status to `responded`, write the
response sub-document with `respondedAt = now`, and save. -/
def respondToInquiry (i : Inquiry) (d : ResponseData) (now : ℕ) :
    Except InquiryError Inquiry × Inquiry :=
  if i.status = .pending then
    let i' := preSave { i with
      status := .responded,
      response := some ⟨d.message, d.price, d.deliveryTime, now⟩ }
    (.ok i', i')
  else
    (.error .alreadyResponded, i)

/-! ### Products and the inquiry routes (src/models/Product.js, src/routes/inquiries.js) -/

/-- A product document, restricted to the fields the inquiry routes
consult. -/
structure Product where
  id : String
  name : String
  price : ℚ
  seller : String
  stock : ℚ
  isActive : Bool
deriving DecidableEq, Repr

/-- The authenticated caller attached to the request by the auth
middleware (`req.user`). -/
structure Caller where
  id : String
  phone : String
  email : String
deriving DecidableEq, Repr

/-- The 24-hex-character object-id pattern `^[0-9a-fA-F]{24}$`. -/
def isHexDigitChar (c : Char) : Bool :=
  (('0' ≤ c && c ≤ '9') || ('a' ≤ c && c ≤ 'f') || ('A' ≤ c && c ≤ 'F'))

/-- Whether a string matches the object-id pattern. -/
def isHex24 (s : String) : Bool :=
  s.length = 24 && s.data.all isHexDigitChar

/-- Body of `POST /api/inquiries`. -/
structure CreateBody where
  productId : String
  quantity : ℚ
  message : String
  expectedPrice : Option ℚ
deriving DecidableEq, Repr

/-- `createInquiryValidation` + `handleValidationErrors`: productId present
and 24-hex, quantity an integer `≥ 1`, message present with length 10–500,
expectedPrice (when given) in `[0, 1000000]`. -/
def validCreateBody (b : CreateBody) : Bool :=
  decide (b.productId ≠ "") && isHex24 b.productId &&
  decide (b.quantity.den = 1) && decide (1 ≤ b.quantity) &&
  decide (b.message ≠ "") &&
  decide (10 ≤ b.message.length) && decide (b.message.length ≤ 500) &&
  (match b.expectedPrice with
   | none => true
   | some p => decide (0 ≤ p) && decide (p ≤ 1000000))

/-- Outcome of the create-inquiry handler, one constructor per early
return of the route. -/
inductive CreateOutcome
  | validationError
  | productNotFound
  | insufficientStock
  | selfInquiryForbidden
  | created (inq : Inquiry)
deriving DecidableEq, Repr

/-- The HTTP status code each create outcome is sent with. -/
def createHttpStatus : CreateOutcome → ℕ
  | .validationError => 400
  | .productNotFound => 404
  | .insufficientStock => 400
  | .selfInquiryForbidden => 400
  | .created _ => 201

/-- `Product.findOne({_id: productId, isActive: true})`. -/
def lookupProduct (products : List Product) (pid : String) : Option Product :=
  products.find? (fun p => p.id = pid && p.isActive)

/-- The `POST /` create-inquiry handler: the express-validator chain runs
first; the handler then loads the active product, checks stock, forbids
self-inquiry, and persists the new inquiry (running the pre-save hook) with
`seller := product.seller` and the schema's default status `pending`.
`newId` is the generated object id and `now` the creation timestamp. -/
def createInquiryRoute (products : List Product) (u : Caller)
    (b : CreateBody) (newId : String) (now : ℕ) : CreateOutcome :=
  if ¬ validCreateBody b then .validationError
  else
    match lookupProduct products b.productId with
    | none => .productNotFound
    | some product =>
      if product.stock < b.quantity then .insufficientStock
      else if product.seller = u.id then .selfInquiryForbidden
      else .created (preSave
        { id := newId
          product := b.productId
          buyer := u.id
          seller := product.seller
          quantity := b.quantity
          message := b.message
          status := .pending
          buyerContact := ⟨u.phone, u.email⟩
          response := none
          expectedPrice := b.expectedPrice
          createdAt := now })

/-- The persistent store the routes read and write. -/
structure Store where
  products : List Product
  inquiries : List Inquiry
deriving DecidableEq, Repr

/-- The create-inquiry call at store level: on success the new inquiry is
inserted; nothing else in the store is written. -/
def createInquiryOp (st : Store) (u : Caller) (b : CreateBody)
    (newId : String) (now : ℕ) : CreateOutcome × Store :=
  match createInquiryRoute st.products u b newId now with
  | .created inq => (.created inq, ⟨st.products, st.inquiries ++ [inq]⟩)
  | o => (o, st)

/-- Body of `PATCH /api/inquiries/:id/respond`. -/
structure RespondBody where
  message : String
  price : ℚ
  deliveryTime : String
deriving DecidableEq, Repr

/-- `respondInquiryValidation` + `handleValidationErrors`: message present
with length 10–1000, price in `[0, 1000000]`, deliveryTime present with
length `≤ 100`. -/
def validRespondBody (b : RespondBody) : Bool :=
  decide (b.message ≠ "") &&
  decide (10 ≤ b.message.length) && decide (b.message.length ≤ 1000) &&
  decide (0 ≤ b.price) && decide (b.price ≤ 1000000) &&
  decide (b.deliveryTime ≠ "") && decide (b.deliveryTime.length ≤ 100)

/-- A JSON response body of the inquiry routes. -/
inductive RespBody
  | err (message : String)
  | okInquiry (inq : Inquiry)
deriving DecidableEq, Repr

/-- An HTTP response (status code and JSON body). -/
structure RouteResp where
  code : ℕ
  body : RespBody
deriving DecidableEq, Repr

/-- The `PATCH /:id/respond` handler: validator chain, id-format check,
`Inquiry.findOne({_id: id, seller: req.user.id})` (404 both when the id is
absent and when the caller is not the seller), pending check, then the
status/response update and save.  Returns the response and the inquiry
collection after the call. -/
def respondRoute (inqs : List Inquiry) (callerId : String) (iid : String)
    (b : RespondBody) (now : ℕ) : RouteResp × List Inquiry :=
  if ¬ validRespondBody b then (⟨400, .err "数据验证失败"⟩, inqs)
  else if ¬ isHex24 iid then (⟨400, .err "无效的询价ID格式"⟩, inqs)
  else
    match inqs.find? (fun i => i.id = iid && i.seller = callerId) with
    | none => (⟨404, .err "询价不存在或无权操作"⟩, inqs)
    | some i =>
      if i.status ≠ .pending then (⟨400, .err "该询价已回复，无法再次回复"⟩, inqs)
      else
        let i' := preSave { i with
          status := .responded,
          response := some ⟨b.message, b.price, b.deliveryTime, now⟩ }
        (⟨200, .okInquiry i'⟩, inqs.map (fun j => if j.id = i.id then i' else j))

/-! ### Theorems for the lifecycle instance methods -/

/-- A concrete inquiry used to instantiate universally quantified theorems. -/
def inqEx : Inquiry :=
  { id := "aaaaaaaaaaaaaaaaaaaaaaaa"
    product := "bbbbbbbbbbbbbbbbbbbbbbbb"
    buyer := "cccccccccccccccccccccccc"
    seller := "dddddddddddddddddddddddd"
    quantity := 5
    message := "need ten units by friday"
    status := .pending
    buyerContact := ⟨"13800000000", "buyer@example.com"⟩
    response := none
    expectedPrice := none
    createdAt := 1000 }

/-- C1: `updateStatus` succeeds exactly when the target is in the transition
table; any other target fails with `InvalidTransition` and the document —
its status in particular — is left unchanged. -/
theorem updateStatus_follows_table (i : Inquiry) (t : Status) :
    ((updateStatus i t).1.isOk = true ↔ t ∈ validTransitions i.status) ∧
    (t ∉ validTransitions i.status →
      updateStatus i t = (.error .invalidTransition, i) ∧
      (updateStatus i t).2.status = i.status) := by
  constructor
  · unfold updateStatus
    by_cases h : t ∈ validTransitions i.status <;>
      simp [h, Except.isOk, Except.toBool]
  · intro h
    unfold updateStatus
    simp [h]

/-- Witness for C1: from `completed` (a terminal state) the transition to
`accepted` is refused and the inquiry is unchanged. -/
theorem updateStatus_follows_table_witness :
    Status.accepted ∉ validTransitions ({ inqEx with status := .completed } : Inquiry).status ∧
    (updateStatus { inqEx with status := .completed } .accepted =
        (.error .invalidTransition, { inqEx with status := .completed }) ∧
      (updateStatus { inqEx with status := .completed } .accepted).2.status =
        ({ inqEx with status := .completed } : Inquiry).status) :=
  ⟨by decide, (updateStatus_follows_table { inqEx with status := .completed } .accepted).2 (by decide)⟩

/-- C2: `respondToInquiry` succeeds iff the current status is exactly
`pending`; on any other status it fails with `AlreadyResponded` leaving the
document unchanged; on success the status becomes `responded` and
`response.respondedAt` is the call time, which is `≥ createdAt` whenever the
clock has not run backwards since creation. -/
theorem respond_iff_pending (i : Inquiry) (d : ResponseData) (now : ℕ)
    (hclock : i.createdAt ≤ now) :
    ((respondToInquiry i d now).1.isOk = true ↔ i.status = .pending) ∧
    (i.status ≠ .pending → respondToInquiry i d now = (.error .alreadyResponded, i)) ∧
    (i.status = .pending →
      (respondToInquiry i d now).2.status = .responded ∧
      ∃ r, (respondToInquiry i d now).2.response = some r ∧
        r.respondedAt = now ∧ (respondToInquiry i d now).2.createdAt ≤ r.respondedAt) := by
  refine ⟨?_, ?_, ?_⟩
  · unfold respondToInquiry
    by_cases h : i.status = .pending <;>
      simp [h, Except.isOk, Except.toBool]
  · intro h
    unfold respondToInquiry
    simp [h]
  · intro h
    unfold respondToInquiry preSave
    by_cases hp : d.price = 0 <;> simp [h, hp] <;> exact hclock

/-- Witness for C2: responding to a concrete pending inquiry at time 2000
(created at 1000) succeeds with status `responded` and `respondedAt = 2000`. -/
theorem respond_iff_pending_witness :
    inqEx.createdAt ≤ 2000 ∧
    (((respondToInquiry inqEx ⟨"can deliver in three days", 100, "3 days"⟩ 2000).1.isOk = true ↔
        inqEx.status = .pending) ∧
      (inqEx.status ≠ .pending →
        respondToInquiry inqEx ⟨"can deliver in three days", 100, "3 days"⟩ 2000 =
          (.error .alreadyResponded, inqEx)) ∧
      (inqEx.status = .pending →
        (respondToInquiry inqEx ⟨"can deliver in three days", 100, "3 days"⟩ 2000).2.status = .responded ∧
        ∃ r, (respondToInquiry inqEx ⟨"can deliver in three days", 100, "3 days"⟩ 2000).2.response = some r ∧
          r.respondedAt = 2000 ∧
          (respondToInquiry inqEx ⟨"can deliver in three days", 100, "3 days"⟩ 2000).2.createdAt ≤ r.respondedAt)) :=
  ⟨by decide, respond_iff_pending inqEx ⟨"can deliver in three days", 100, "3 days"⟩ 2000 (by decide)⟩

/-! ### Theorems for the inquiry routes -/

/-- The pre-save hook never changes the status field. -/
theorem preSave_status (i : Inquiry) : (preSave i).status = i.status := rfl

/-- A 24-hex product id used in concrete instances. -/
def pidB : String := "bbbbbbbbbbbbbbbbbbbbbbbb"

/-- A fresh inquiry object id used in concrete instances. -/
def newIdA : String := "aaaaaaaaaaaaaaaaaaaaaaaa"

/-- A concrete buyer. -/
def buyerEx : Caller := ⟨"cccccccccccccccccccccccc", "13800000000", "buyer@example.com"⟩

/-- A concrete active product with stock 1. -/
def prodLow : Product := ⟨pidB, "bearing", 10, "dddddddddddddddddddddddd", 1, true⟩

/-- A concrete active product with stock 10. -/
def prodOk : Product := ⟨pidB, "bearing", 10, "dddddddddddddddddddddddd", 10, true⟩

/-- A create body whose message is too short (5 characters) and whose
quantity exceeds `prodLow`'s stock. -/
def bShortMsg : CreateBody := ⟨pidB, 5, "short", none⟩

/-- A well-formed create body for quantity 5. -/
def bGood : CreateBody := ⟨pidB, 5, "need ten units by friday", none⟩

/-- C4 counterexample: with quantity 5 exceeding the product's stock 1 but
a 5-character message, the call fails with the validator's 400, not with
`InsufficientStock` — the express-validator chain runs before the stock
check, so the claim's "regardless of other field validity" is false. -/
theorem create_checks_cex :
    prodLow.stock < bShortMsg.quantity ∧
    createInquiryRoute [prodLow] buyerEx bShortMsg newIdA 0 ≠ .insufficientStock ∧
    createInquiryRoute [prodLow] buyerEx bShortMsg newIdA 0 = .validationError := by
  refine ⟨by norm_num [prodLow, bShortMsg], by decide, by decide⟩

/-- C4 amended: once the body passes the route's validation rules and the
active product is found, a quantity exceeding the stock fails with
`InsufficientStock`; otherwise a buyer equal to the product's seller fails
with `SelfInquiryForbidden` (the stock check runs first). -/
theorem create_checks_after_validation (products : List Product) (u : Caller)
    (b : CreateBody) (newId : String) (now : ℕ) (p : Product)
    (hv : validCreateBody b = true)
    (hp : lookupProduct products b.productId = some p) :
    (p.stock < b.quantity →
      createInquiryRoute products u b newId now = .insufficientStock) ∧
    (¬ p.stock < b.quantity → p.seller = u.id →
      createInquiryRoute products u b newId now = .selfInquiryForbidden) := by
  unfold createInquiryRoute
  rw [hp]
  simp only [hv]
  constructor
  · intro h
    simp [h]
  · intro h1 h2
    simp [h1, h2]

/-- Witness for the amended C4: with a valid body for quantity 5 against
the stock-1 product, the call fails with `InsufficientStock`. -/
theorem create_checks_after_validation_witness :
    validCreateBody bGood = true ∧
    lookupProduct [prodLow] bGood.productId = some prodLow ∧
    prodLow.stock < bGood.quantity ∧
    createInquiryRoute [prodLow] buyerEx bGood newIdA 0 = .insufficientStock :=
  ⟨by decide, by decide, by decide,
    (create_checks_after_validation [prodLow] buyerEx bGood newIdA 0 prodLow
      (by decide) (by decide)).1 (by decide)⟩

/-- If the create handler returns a created inquiry, its status is the
schema default `pending`. -/
theorem createRoute_created_status (products : List Product) (u : Caller)
    (b : CreateBody) (newId : String) (now : ℕ) (inq : Inquiry) :
    createInquiryRoute products u b newId now = .created inq →
    inq.status = .pending := by
  unfold createInquiryRoute
  by_cases hv : validCreateBody b
  · simp only [hv]
    cases hp : lookupProduct products b.productId with
    | none => simp
    | some p =>
      by_cases h1 : p.stock < b.quantity
      · simp [h1]
      · by_cases h2 : p.seller = u.id
        · simp [h1, h2]
        · simp only [h1, h2, if_false, not_true, if_neg, ite_false]
          intro heq
          cases heq
          rfl
  · simp [hv]

/-- C7: the create-inquiry call never writes the products collection — in
particular the referenced product's stock is unchanged — and every
successfully created inquiry has status `pending`. -/
theorem create_frame_and_pending (st : Store) (u : Caller) (b : CreateBody)
    (newId : String) (now : ℕ) :
    (createInquiryOp st u b newId now).2.products = st.products ∧
    (∀ inq, (createInquiryOp st u b newId now).1 = .created inq →
      inq.status = .pending) := by
  unfold createInquiryOp
  cases h : createInquiryRoute st.products u b newId now <;> simp
  case created inq =>
    exact createRoute_created_status st.products u b newId now inq h

/-- Witness for C7 at a concrete successful creation (stock 10, quantity 5,
valid message, distinct buyer and seller). -/
theorem create_frame_and_pending_witness :
    (createInquiryOp ⟨[prodOk], []⟩ buyerEx bGood newIdA 0).2.products = [prodOk] ∧
    (∀ inq, (createInquiryOp ⟨[prodOk], []⟩ buyerEx bGood newIdA 0).1 = .created inq →
      inq.status = .pending) :=
  create_frame_and_pending ⟨[prodOk], []⟩ buyerEx bGood newIdA 0

/-- C9: the pre-save hook normalizes the numeric fields of every persisted
inquiry — the quantity is floored to an integer and both prices are rounded
to two decimals under JS `Math.round` (half-up in exact arithmetic) — and a
respond call with price 199.995 persists `response.price = 200.00`. -/
theorem preSave_normalizes (i : Inquiry) (d : ResponseData) (now : ℕ) :
    ((preSave i).quantity = (⌊i.quantity⌋ : ℚ) ∧
     (preSave i).expectedPrice = i.expectedPrice.map round2 ∧
     (preSave i).response.map ResponseRec.price =
       (i.response.map ResponseRec.price).map round2) ∧
    (i.status = .pending → d.price = (199.995 : ℚ) →
      (respondToInquiry i d now).2.response.map ResponseRec.price = some 200) := by
  constructor
  · refine ⟨?_, ?_, ?_⟩
    · unfold preSave
      by_cases h : i.quantity = 0
      · simp [h]
      · simp [h]
    · unfold preSave
      cases i.expectedPrice with
      | none => simp
      | some p =>
        by_cases h : p = 0
        · simp [h, round2, jsRound]
        · simp [h]
    · unfold preSave
      cases i.response with
      | none => simp
      | some r =>
        by_cases h : r.price = 0
        · simp [h, round2, jsRound]
        · simp [h]
  · intro hs hp
    unfold respondToInquiry preSave
    have hnz : d.price ≠ 0 := by rw [hp]; norm_num
    simp only [hs, if_pos, Option.map_some, hnz, if_neg, ite_false, ite_true]
    simp [hnz, hp, round2, jsRound]
    rw [round_eq]
    norm_num

/-- Witness for C9: responding to the concrete pending inquiry with price
199.995 persists price 200. -/
theorem preSave_normalizes_witness :
    inqEx.status = .pending ∧
    (respondToInquiry inqEx ⟨"can deliver in three days", 199.995, "3 days"⟩ 0).2.response.map
        ResponseRec.price = some 200 :=
  ⟨rfl, (preSave_normalizes inqEx ⟨"can deliver in three days", 199.995, "3 days"⟩ 0).2 rfl rfl⟩

/-- A concrete pending inquiry owned by seller `dddd…` with id `aaaa…`. -/
def inqOfSellerD : Inquiry := inqEx

/-- A concrete valid respond body. -/
def rbGood : RespondBody := ⟨"can deliver in three days", 100, "3 days"⟩

/-- A respond body with a 5-character message, rejected by the validator. -/
def rbShort : RespondBody := ⟨"short", 100, "3 days"⟩

/-- C10 counterexample: a caller who is not the inquiry's seller but sends
a 5-character message receives the validator's 400, not 404 — the claim's
"every call by a non-seller yields 404" fails for invalid bodies, which are
rejected before the ownership lookup. -/
theorem respond_nonseller_cex :
    inqOfSellerD.seller ≠ "eeeeeeeeeeeeeeeeeeeeeeee" ∧
    (respondRoute [inqOfSellerD] "eeeeeeeeeeeeeeeeeeeeeeee" inqOfSellerD.id rbShort 0).1.code = 400 := by
  refine ⟨by decide, by decide⟩

/-- C10 amended: for every call with a body passing validation and a
well-formed 24-hex id, when no stored inquiry has both that id and the
caller as seller (the caller is a non-seller, or the id is absent), the
response is exactly `404 "询价不存在或无权操作"` — byte-identical in the two
cases — and the inquiry collection is unchanged; moreover the respond route
never returns 403 on any input. -/
theorem respond_nonseller_404 (inqs : List Inquiry) (caller iid : String)
    (b : RespondBody) (now : ℕ)
    (hv : validRespondBody b = true) (hid : isHex24 iid = true)
    (hns : ∀ i ∈ inqs, i.id = iid → i.seller ≠ caller) :
    respondRoute inqs caller iid b now = (⟨404, .err "询价不存在或无权操作"⟩, inqs) ∧
    (∀ inqs2 c2 id2 b2 n2, (respondRoute inqs2 c2 id2 b2 n2).1.code ≠ 403) := by
  constructor
  · have hfind : inqs.find? (fun i => i.id = iid && i.seller = caller) = none := by
      rw [List.find?_eq_none]
      intro i hi
      simp only [Bool.and_eq_true, decide_eq_true_eq, not_and]
      intro h1
      exact fun h2 => hns i hi h1 h2
    unfold respondRoute
    rw [hfind]
    simp [hv, hid]
  · intro inqs2 c2 id2 b2 n2
    unfold respondRoute
    by_cases h1 : validRespondBody b2
    · by_cases h2 : isHex24 id2
      · simp only [h1, h2]
        cases hf : inqs2.find? (fun i => i.id = id2 && i.seller = c2) with
        | none => simp
        | some i =>
          by_cases h3 : i.status = Status.pending <;> simp [h3]
      · simp [h1, h2]
    · simp [h1]

/-- Witness for the amended C10: with a valid body and a well-formed id, a
non-seller caller gets the same 404 as for an absent id, and the store is
unchanged. -/
theorem respond_nonseller_404_witness :
    validRespondBody rbGood = true ∧
    isHex24 inqOfSellerD.id = true ∧
    (∀ i ∈ [inqOfSellerD], i.id = inqOfSellerD.id → i.seller ≠ "eeeeeeeeeeeeeeeeeeeeeeee") ∧
    respondRoute [inqOfSellerD] "eeeeeeeeeeeeeeeeeeeeeeee" inqOfSellerD.id rbGood 0 =
      (⟨404, .err "询价不存在或无权操作"⟩, [inqOfSellerD]) :=
  ⟨by decide, by decide, by decide,
    (respond_nonseller_404 [inqOfSellerD] "eeeeeeeeeeeeeeeeeeeeeeee" inqOfSellerD.id rbGood 0
      (by decide) (by decide) (by decide)).1⟩

/-! ### Anti-forgery token service (src/middleware/security.js)

The `csrf` npm package derives `token = salt + "-" + hash(salt + "-" + secret)`
and verifies by splitting the submitted token at its first `-`, recomputing
the expected token from the session secret and the extracted salt, and
comparing.  The one-way function (SHA-1 in the library) is a parameter of
the embedding; its collision-freedom is idealized as injectivity.  Strings
are modelled as character lists. -/

/-- `Tokens._tokenize(secret, salt)`. -/
def tokenize (hash : List Char → List Char) (secret salt : List Char) : List Char :=
  salt ++ '-' :: hash (salt ++ '-' :: secret)

/-- `Tokens.create(secret)` with the drawn random salt made explicit. -/
def createToken (hash : List Char → List Char) (secret salt : List Char) : List Char :=
  tokenize hash secret salt

/-- `Tokens.verify(secret, token)`: reject tokens without a `-`, otherwise
recompute from the salt before the first `-` and compare. -/
def verifyToken (hash : List Char → List Char) (secret token : List Char) : Bool :=
  if '-' ∈ token then
    decide (tokenize hash secret (token.takeWhile (fun c => c ≠ '-')) = token)
  else false

/-- `takeWhile` over a list whose elements all satisfy the predicate,
followed by one that does not, returns exactly that list. -/
theorem takeWhile_append_stop {p : Char → Bool} (l r : List Char)
    (hl : ∀ c ∈ l, p c = true) (x : Char) (hx : p x = false) :
    (l ++ x :: r).takeWhile p = l := by
  induction l with
  | nil => simp [List.takeWhile, hx]
  | cons c cs ih =>
    have hc : p c = true := hl c (List.mem_cons_self c cs)
    have ih' := ih (fun d hd => hl d (List.mem_cons_of_mem c hd))
    simp [List.takeWhile_cons, hc, ih']

/-- C6: for an injective (collision-free) hash and a salt free of the `-`
separator, a token created under secret `s1` never verifies under a
different secret `s2`. -/
theorem token_secret_binding (hash : List Char → List Char)
    (hinj : Function.Injective hash) (s1 s2 salt : List Char)
    (hsalt : '-' ∉ salt) (hne : s1 ≠ s2) :
    verifyToken hash s2 (createToken hash s1 salt) = false := by
  unfold verifyToken createToken tokenize
  have hmem : '-' ∈ salt ++ '-' :: hash (salt ++ '-' :: s1) := by
    simp
  rw [if_pos hmem]
  have hsalt' : ∀ c ∈ salt, (fun c => decide ¬(c = '-')) c = true := by
    intro c hc
    simp only [decide_eq_true_eq]
    intro h
    exact hsalt (h ▸ hc)
  have htake : (salt ++ '-' :: hash (salt ++ '-' :: s1)).takeWhile
      (fun c => decide ¬(c = '-')) = salt :=
    takeWhile_append_stop salt _ hsalt' '-' (by simp)
  rw [htake]
  simp only [decide_eq_false_iff_not]
  intro heq
  have hh : hash (salt ++ '-' :: s2) = hash (salt ++ '-' :: s1) := by
    have := List.append_cancel_left heq
    exact List.tail_eq_of_cons_eq this
  have := hinj hh
  have := List.append_cancel_left this
  exact hne (List.tail_eq_of_cons_eq this).symm

/-- Witness for C6: with the identity as (injective) hash, secret `"a"`,
secret `"b"` and salt `"xy"`, the cross-verification fails. -/
theorem token_secret_binding_witness :
    Function.Injective (fun l : List Char => l) ∧
    '-' ∉ ['x', 'y'] ∧ (['a'] : List Char) ≠ ['b'] ∧
    verifyToken (fun l : List Char => l) ['b'] (createToken (fun l : List Char => l) ['a'] ['x', 'y']) = false :=
  ⟨fun a b h => h, by decide, by decide,
    token_secret_binding (fun l => l) (fun a b h => h) ['a'] ['b'] ['x', 'y']
      (by decide) (by decide)⟩

/-! ### CSRF validation pipeline (src/middleware/security.js validateCsrf,
src/server.js route mounting) -/

/-- HTTP request methods. -/
inductive Method
  | GET
  | POST
  | PUT
  | PATCH
  | DELETE
  | HEAD
  | OPTIONS
deriving DecidableEq, Repr

/-- Character-list prefix test (Express mount matching and
`String.prototype.startsWith`). -/
def strPre : List Char → List Char → Bool
  | [], _ => true
  | _ :: _, [] => false
  | a :: as, b :: bs => a = b && strPre as bs

/-- Whether `s` starts with `p`. -/
def startsWithStr (p s : String) : Bool := strPre p.data s.data

/-- Express strips the mount path from `req.path` before the mounted
middleware runs. -/
def mountStrip (p s : String) : String := ⟨s.data.drop p.data.length⟩

/-- The skip list of `validateCsrf`. -/
def skipPaths : List String :=
  ["/auth/register", "/auth/login", "/api/health", "/api/csrf-token", "/api/debug/session"]

/-- Outcome of the CSRF stage for one request. -/
inductive CsrfOutcome
  | notChecked
  | rejectedMissing
  | rejectedInvalid
  | passed
deriving DecidableEq, Repr

/-- HTTP status sent by the CSRF stage when it rejects. -/
def csrfHttpStatus : CsrfOutcome → Option ℕ
  | .rejectedMissing => some 403
  | .rejectedInvalid => some 403
  | _ => none

/-- The `validateCsrf` middleware: skip safe methods, the allow-listed
paths and non-logout auth paths; then require a token (header or `_csrf`
body field) that verifies against the session secret, else respond 403. -/
def validateCsrf (hash : List Char → List Char) (secret : List Char)
    (m : Method) (path : String) (token : Option (List Char)) : CsrfOutcome :=
  if m ∈ [Method.GET, Method.HEAD, Method.OPTIONS] then .notChecked
  else if path ∈ skipPaths then .notChecked
  else if startsWithStr "/auth/" path && decide (path ≠ "/auth/logout") then .notChecked
  else
    match token with
    | none => .rejectedMissing
    | some tk => if verifyToken hash secret tk then .passed else .rejectedInvalid

/-- The CSRF stage of the server pipeline as mounted in `server.js`:
`validateCsrf` is attached only to the `/auth` and `/api/users` mounts
(with the mount prefix stripped from the path it sees); the
`/api/products` and `/api/inquiries` mounts carry no CSRF middleware. -/
def serverCsrfGate (hash : List Char → List Char) (secret : List Char)
    (m : Method) (path : String) (token : Option (List Char)) : CsrfOutcome :=
  if startsWithStr "/auth" path then
    validateCsrf hash secret m (mountStrip "/auth" path) token
  else if startsWithStr "/api/users" path then
    validateCsrf hash secret m (mountStrip "/api/users" path) token
  else .notChecked

/-- C3 counterexample: a mutating request to the inquiry endpoint with no
CSRF token at all passes the CSRF stage unchecked — no 403 is produced —
because `server.js` does not mount `validateCsrf` on `/api/inquiries`
(nor on `/api/products`). -/
theorem csrf_not_mounted_cex :
    Method.POST ∉ [Method.GET, Method.HEAD, Method.OPTIONS] ∧
    "/api/inquiries" ∉ skipPaths ∧
    serverCsrfGate (fun l => l) ['s'] .POST "/api/inquiries" none = .notChecked ∧
    csrfHttpStatus (serverCsrfGate (fun l => l) ['s'] .POST "/api/inquiries" none) ≠ some 403 := by
  refine ⟨by decide, by decide, by decide, by decide⟩

/-- C3 amended: CSRF validation is mounted only on `/auth` and
`/api/users`; a mutating request under `/api/users` whose mount-stripped
path is not allow-listed is rejected 403 when the token is missing or fails
verification, and passes when it verifies; every request outside the two
mounts — the inquiry and product endpoints in particular — undergoes no
CSRF check. -/
theorem csrf_gate_mounting (hash : List Char → List Char) (secret : List Char)
    (m : Method) (p : String) (tk : List Char)
    (hm : m ∉ [Method.GET, Method.HEAD, Method.OPTIONS])
    (hmount : startsWithStr "/api/users" p = true)
    (hnotauth : startsWithStr "/auth" p = false)
    (hskip : mountStrip "/api/users" p ∉ skipPaths)
    (hnotauth2 : startsWithStr "/auth/" (mountStrip "/api/users" p) = false) :
    (serverCsrfGate hash secret m p none = .rejectedMissing ∧
      csrfHttpStatus (serverCsrfGate hash secret m p none) = some 403) ∧
    (verifyToken hash secret tk = false →
      serverCsrfGate hash secret m p (some tk) = .rejectedInvalid ∧
      csrfHttpStatus (serverCsrfGate hash secret m p (some tk)) = some 403) ∧
    (verifyToken hash secret tk = true →
      serverCsrfGate hash secret m p (some tk) = .passed) ∧
    (∀ (p2 : String) (tok2 : Option (List Char)),
      startsWithStr "/auth" p2 = false → startsWithStr "/api/users" p2 = false →
      serverCsrfGate hash secret m p2 tok2 = .notChecked) := by
  refine ⟨?_, ?_, ?_, ?_⟩
  · unfold serverCsrfGate validateCsrf
    simp [hmount, hnotauth, hm, hskip, hnotauth2, csrfHttpStatus]
  · intro hv
    unfold serverCsrfGate validateCsrf
    simp [hmount, hnotauth, hm, hskip, hnotauth2, hv, csrfHttpStatus]
  · intro hv
    unfold serverCsrfGate validateCsrf
    simp [hmount, hnotauth, hm, hskip, hnotauth2, hv]
  · intro p2 tok2 h1 h2
    unfold serverCsrfGate
    simp [h1, h2]

/-- Witness for the amended C3: a tokenless `POST /api/users/profile` is
rejected 403, while `POST /api/inquiries` is not CSRF-checked. -/
theorem csrf_gate_mounting_witness :
    Method.POST ∉ [Method.GET, Method.HEAD, Method.OPTIONS] ∧
    startsWithStr "/api/users" "/api/users/profile" = true ∧
    startsWithStr "/auth" "/api/users/profile" = false ∧
    mountStrip "/api/users" "/api/users/profile" ∉ skipPaths ∧
    startsWithStr "/auth/" (mountStrip "/api/users" "/api/users/profile") = false ∧
    (serverCsrfGate (fun l => l) ['s', 'e'] .POST "/api/users/profile" none = .rejectedMissing ∧
      csrfHttpStatus (serverCsrfGate (fun l => l) ['s', 'e'] .POST "/api/users/profile" none) = some 403) :=
  ⟨by decide, by decide, by decide, by decide, by decide,
    (csrf_gate_mounting (fun l => l) ['s', 'e'] .POST "/api/users/profile" ['z']
      (by decide) (by decide) (by decide) (by decide) (by decide)).1⟩

/-! ### Sanitization layer (src/middleware/security.js sanitizeInput,
xssProtection / sanitizeObject)

The library filters are modelled at character level, faithful to their
configurations in the source: `sanitize-html` with `allowedTags: []` parses
the input (dropping every tag and decoding entities in text), re-escapes
the text, applies the `textFilter` removing raw `<`/`>`, and the middleware
then trims; the `xss` library with an empty whitelist and `stripIgnoreTag`
drops tags and escapes the remaining angle brackets without touching `&`.
Strings are character lists. -/

/-- ASCII whitespace for `String.prototype.trim`. -/
def isSpaceChar (c : Char) : Bool :=
  c = ' ' || c = '\t' || c = '\n' || c = '\r'

/-- Tag removal: text outside `<...>` is kept (a stray `>` is text), and
everything from a `<` to the next `>` is dropped. -/
def stripTagsAux : Bool → List Char → List Char
  | _, [] => []
  | false, c :: rest =>
    if c = '<' then stripTagsAux true rest else c :: stripTagsAux false rest
  | true, c :: rest =>
    if c = '>' then stripTagsAux false rest else stripTagsAux true rest

/-- Strip all HTML tags from a text. -/
def stripTags (l : List Char) : List Char := stripTagsAux false l

/-- Entity escaping of one text character (`&`, `<`, `>`, `"`). -/
def encChar (c : Char) : List Char :=
  if c = '&' then ['&', 'a', 'm', 'p', ';']
  else if c = '<' then ['&', 'l', 't', ';']
  else if c = '>' then ['&', 'g', 't', ';']
  else if c = '"' then ['&', 'q', 'u', 'o', 't', ';']
  else [c]

/-- Entity-escape a text. -/
def encodeEnt (l : List Char) : List Char := l.flatMap encChar

/-- Entity decoding performed by the HTML parser on text content
(restricted to the entities the escaper emits). -/
def decodeEnt : List Char → List Char
  | [] => []
  | c :: rest =>
    if c = '&' then
      match rest with
      | 'a' :: 'm' :: 'p' :: ';' :: r2 => '&' :: decodeEnt r2
      | 'l' :: 't' :: ';' :: r2 => '<' :: decodeEnt r2
      | 'g' :: 't' :: ';' :: r2 => '>' :: decodeEnt r2
      | 'q' :: 'u' :: 'o' :: 't' :: ';' :: r2 => '"' :: decodeEnt r2
      | r => c :: decodeEnt r
    else c :: decodeEnt rest
termination_by l => l.length
decreasing_by all_goals simp <;> omega

/-- The route-level `textFilter`: `text.replace(/[<>]/g, '')`. -/
def filterAngles (l : List Char) : List Char :=
  l.filter (fun c => decide (c ≠ '<' ∧ c ≠ '>'))

/-- `String.prototype.trim`. -/
def trimChars (l : List Char) : List Char :=
  (l.dropWhile isSpaceChar).rdropWhile isSpaceChar

/-- The inbound sanitizer applied to every string field of the body and
query: strip tags, decode + re-escape entities, drop raw angle brackets,
trim. -/
def sanitizeValue (l : List Char) : List Char :=
  trimChars (filterAngles (encodeEnt (decodeEnt (stripTags l))))

/-- Outbound escaping of one character by the `xss` library (angle
brackets only; `&` is left alone). -/
def xssEscChar (c : Char) : List Char :=
  if c = '<' then ['&', 'l', 't', ';']
  else if c = '>' then ['&', 'g', 't', ';']
  else [c]

/-- The outbound filter applied by `xssProtection`/`sanitizeObject` to
every outgoing string: strip non-whitelisted tags, escape remaining angle
brackets. -/
def xssFilter (l : List Char) : List Char := (stripTags l).flatMap xssEscChar

/-- A text without `<` passes `stripTags` unchanged. -/
theorem stripTags_eq_self (l : List Char) (h : ∀ c ∈ l, c ≠ '<') :
    stripTags l = l := by
  unfold stripTags
  induction l with
  | nil => rfl
  | cons c cs ih =>
    have hc : c ≠ '<' := h c (List.mem_cons_self c cs)
    have ih' := ih (fun d hd => h d (List.mem_cons_of_mem c hd))
    simp only [stripTagsAux, if_neg hc]
    rw [ih']

/-- The characters emitted by the escaper are never angle brackets. -/
theorem mem_encChar_ne_angle (c d : Char) (hd : d ∈ encChar c) :
    d ≠ '<' ∧ d ≠ '>' := by
  unfold encChar at hd
  split_ifs at hd with h1 h2 h3 h4
  · simp only [List.mem_cons, List.mem_singleton, List.not_mem_nil, or_false] at hd
    rcases hd with rfl | rfl | rfl | rfl | rfl <;> exact ⟨by decide, by decide⟩
  · simp only [List.mem_cons, List.mem_singleton, List.not_mem_nil, or_false] at hd
    rcases hd with rfl | rfl | rfl | rfl <;> exact ⟨by decide, by decide⟩
  · simp only [List.mem_cons, List.mem_singleton, List.not_mem_nil, or_false] at hd
    rcases hd with rfl | rfl | rfl | rfl <;> exact ⟨by decide, by decide⟩
  · simp only [List.mem_cons, List.mem_singleton, List.not_mem_nil, or_false] at hd
    rcases hd with rfl | rfl | rfl | rfl | rfl | rfl <;> exact ⟨by decide, by decide⟩
  · simp only [List.mem_singleton] at hd
    subst hd
    exact ⟨h2, h3⟩

/-- Escaped text contains no angle brackets. -/
theorem encodeEnt_no_angle (t : List Char) :
    ∀ d ∈ encodeEnt t, d ≠ '<' ∧ d ≠ '>' := by
  intro d hd
  unfold encodeEnt at hd
  rw [List.mem_flatMap] at hd
  obtain ⟨c, _, hc⟩ := hd
  exact mem_encChar_ne_angle c d hc

/-- The text filter is the identity on angle-free text. -/
theorem filterAngles_eq_self (l : List Char)
    (h : ∀ d ∈ l, d ≠ '<' ∧ d ≠ '>') : filterAngles l = l := by
  unfold filterAngles
  exact List.filter_eq_self.mpr (fun a ha => by simpa using h a ha)

/-- Decoding an `&amp;` entity. -/
theorem decodeEnt_amp (e : List Char) :
    decodeEnt ('&' :: 'a' :: 'm' :: 'p' :: ';' :: e) = '&' :: decodeEnt e := by
  simp [decodeEnt]

/-- Decoding an `&lt;` entity. -/
theorem decodeEnt_lt (e : List Char) :
    decodeEnt ('&' :: 'l' :: 't' :: ';' :: e) = '<' :: decodeEnt e := by
  simp [decodeEnt]

/-- Decoding an `&gt;` entity. -/
theorem decodeEnt_gt (e : List Char) :
    decodeEnt ('&' :: 'g' :: 't' :: ';' :: e) = '>' :: decodeEnt e := by
  simp [decodeEnt]

/-- Decoding an `&quot;` entity. -/
theorem decodeEnt_quot (e : List Char) :
    decodeEnt ('&' :: 'q' :: 'u' :: 'o' :: 't' :: ';' :: e) = '"' :: decodeEnt e := by
  simp [decodeEnt]

/-- A character other than `&` decodes to itself. -/
theorem decodeEnt_cons_ne (c : Char) (e : List Char) (h : c ≠ '&') :
    decodeEnt (c :: e) = c :: decodeEnt e := by
  rw [decodeEnt.eq_def]
  simp [h]

/-- Decoding inverts escaping. -/
theorem decodeEnt_encodeEnt (t : List Char) : decodeEnt (encodeEnt t) = t := by
  induction t with
  | nil => simp [encodeEnt, decodeEnt]
  | cons c t ih =>
    have henc : encodeEnt (c :: t) = encChar c ++ encodeEnt t := by
      simp [encodeEnt]
    rw [henc]
    by_cases h1 : c = '&'
    · subst h1
      rw [show encChar '&' = ['&', 'a', 'm', 'p', ';'] from rfl]
      simp only [List.cons_append, List.nil_append]
      rw [decodeEnt_amp, ih]
    · by_cases h2 : c = '<'
      · subst h2
        rw [show encChar '<' = ['&', 'l', 't', ';'] from rfl]
        simp only [List.cons_append, List.nil_append]
        rw [decodeEnt_lt, ih]
      · by_cases h3 : c = '>'
        · subst h3
          rw [show encChar '>' = ['&', 'g', 't', ';'] from rfl]
          simp only [List.cons_append, List.nil_append]
          rw [decodeEnt_gt, ih]
        · by_cases h4 : c = '"'
          · subst h4
            rw [show encChar '"' = ['&', 'q', 'u', 'o', 't', ';'] from rfl]
            simp only [List.cons_append, List.nil_append]
            rw [decodeEnt_quot, ih]
          · rw [show encChar c = [c] by simp [encChar, h1, h2, h3, h4]]
            simp only [List.singleton_append]
            rw [decodeEnt_cons_ne c _ h1, ih]

/-- A whitespace character is escaped to itself. -/
theorem encChar_of_space (c : Char) (hs : isSpaceChar c = true) :
    encChar c = [c] := by
  have h4 : ((c = ' ' ∨ c = '\t') ∨ c = '\n') ∨ c = '\r' := by
    simpa [isSpaceChar] using hs
  rcases h4 with ((rfl | rfl) | rfl) | rfl <;> rfl

/-- Leading-whitespace removal commutes with escaping. -/
theorem dropWhile_encodeEnt (t : List Char) :
    (encodeEnt t).dropWhile isSpaceChar = encodeEnt (t.dropWhile isSpaceChar) := by
  induction t with
  | nil => rfl
  | cons c t ih =>
    have henc : encodeEnt (c :: t) = encChar c ++ encodeEnt t := by
      simp [encodeEnt]
    rw [henc]
    by_cases hs : isSpaceChar c
    · rw [encChar_of_space c hs]
      simpa [List.dropWhile_cons, hs] using ih
    · have hs' : isSpaceChar c = false := by simpa using hs
      have hex : ∃ d ds, encChar c = d :: ds ∧ isSpaceChar d = false := by
        unfold encChar
        split_ifs with h1 h2 h3 h4
        · exact ⟨'&', _, rfl, by decide⟩
        · exact ⟨'&', _, rfl, by decide⟩
        · exact ⟨'&', _, rfl, by decide⟩
        · exact ⟨'&', _, rfl, by decide⟩
        · exact ⟨c, [], rfl, hs'⟩
      obtain ⟨d, ds, hds, hd⟩ := hex
      have hRHS : (c :: t).dropWhile isSpaceChar = c :: t := by
        simp [List.dropWhile_cons, hs']
      rw [hds, hRHS, henc, hds]
      simp [List.dropWhile_cons, hd]

/-- Trailing-whitespace removal absorbs a trailing escaped block whose last
character is not whitespace. -/
theorem rdropWhile_append_encChar (e : List Char) (c : Char)
    (hs : isSpaceChar c = false) :
    (e ++ encChar c).rdropWhile isSpaceChar = e ++ encChar c := by
  unfold encChar
  split_ifs with h1 h2 h3 h4
  · rw [show (['&', 'a', 'm', 'p', ';'] : List Char) = ['&', 'a', 'm', 'p'] ++ [';'] from rfl,
      ← List.append_assoc]
    exact List.rdropWhile_concat_neg _ _ ';' (by decide)
  · rw [show (['&', 'l', 't', ';'] : List Char) = ['&', 'l', 't'] ++ [';'] from rfl,
      ← List.append_assoc]
    exact List.rdropWhile_concat_neg _ _ ';' (by decide)
  · rw [show (['&', 'g', 't', ';'] : List Char) = ['&', 'g', 't'] ++ [';'] from rfl,
      ← List.append_assoc]
    exact List.rdropWhile_concat_neg _ _ ';' (by decide)
  · rw [show (['&', 'q', 'u', 'o', 't', ';'] : List Char) = ['&', 'q', 'u', 'o', 't'] ++ [';'] from rfl,
      ← List.append_assoc]
    exact List.rdropWhile_concat_neg _ _ ';' (by decide)
  · exact List.rdropWhile_concat_neg _ _ c (by simp [hs])

/-- Trailing-whitespace removal commutes with escaping. -/
theorem rdropWhile_encodeEnt (t : List Char) :
    (encodeEnt t).rdropWhile isSpaceChar = encodeEnt (t.rdropWhile isSpaceChar) := by
  induction t using List.reverseRecOn with
  | nil => rfl
  | append_singleton t c ih =>
    have henc : encodeEnt (t ++ [c]) = encodeEnt t ++ encChar c := by
      simp [encodeEnt]
    rw [henc]
    by_cases hs : isSpaceChar c
    · rw [encChar_of_space c hs]
      rw [List.rdropWhile_concat_pos _ _ c hs, List.rdropWhile_concat_pos _ _ c hs, ih]
    · have hs' : isSpaceChar c = false := by simpa using hs
      rw [rdropWhile_append_encChar (encodeEnt t) c hs',
        List.rdropWhile_concat_neg _ _ c (by simp [hs']), henc]

/-- Trimming commutes with escaping. -/
theorem trimChars_encodeEnt (t : List Char) :
    trimChars (encodeEnt t) = encodeEnt (trimChars t) := by
  unfold trimChars
  rw [dropWhile_encodeEnt, rdropWhile_encodeEnt]

/-- A prefix of a list with no leading whitespace has no leading
whitespace. -/
theorem dropWhile_eq_self_of_pre {l m : List Char}
    (hl : l.dropWhile isSpaceChar = l) (hm : m <+: l) :
    m.dropWhile isSpaceChar = m := by
  cases m with
  | nil => rfl
  | cons c cs =>
    obtain ⟨rest, hrest⟩ := hm
    have hcl : l = c :: (cs ++ rest) := by rw [← hrest]; rfl
    have hc : isSpaceChar c = false := by
      by_contra hcc
      have hcc' : isSpaceChar c = true := by
        revert hcc
        cases isSpaceChar c <;> simp
      rw [hcl, List.dropWhile_cons, if_pos hcc'] at hl
      have hlen := congrArg List.length hl
      have hle : (List.dropWhile isSpaceChar (cs ++ rest)).length ≤ (cs ++ rest).length :=
        (List.dropWhile_sublist isSpaceChar).length_le
      simp only [List.length_cons] at hlen
      omega
    rw [List.dropWhile_cons, hc]
    simp

/-- Trimming is idempotent. -/
theorem trimChars_idem (l : List Char) : trimChars (trimChars l) = trimChars l := by
  unfold trimChars
  have hApref := List.rdropWhile_prefix isSpaceChar (l.dropWhile isSpaceChar)
  have hAdw := List.dropWhile_idempotent isSpaceChar l
  have hBdw := dropWhile_eq_self_of_pre hAdw hApref
  rw [hBdw, List.rdropWhile_idempotent]

/-- Characters emitted by the outbound escaper are never angle brackets. -/
theorem mem_xssEscChar_ne_angle (c d : Char) (hd : d ∈ xssEscChar c) :
    d ≠ '<' ∧ d ≠ '>' := by
  unfold xssEscChar at hd
  split_ifs at hd with h1 h2
  · simp only [List.mem_cons, List.mem_singleton, List.not_mem_nil, or_false] at hd
    rcases hd with rfl | rfl | rfl | rfl <;> exact ⟨by decide, by decide⟩
  · simp only [List.mem_cons, List.mem_singleton, List.not_mem_nil, or_false] at hd
    rcases hd with rfl | rfl | rfl | rfl <;> exact ⟨by decide, by decide⟩
  · simp only [List.mem_singleton] at hd
    subst hd
    exact ⟨h1, h2⟩

/-- The outbound escaper is the identity on angle-free text. -/
theorem flatMap_xssEscChar_eq_self (m : List Char)
    (h : ∀ d ∈ m, d ≠ '<' ∧ d ≠ '>') : m.flatMap xssEscChar = m := by
  induction m with
  | nil => rfl
  | cons c cs ih =>
    have hc := h c (List.mem_cons_self c cs)
    have : xssEscChar c = [c] := by simp [xssEscChar, hc.1, hc.2]
    simp only [List.flatMap_cons, this]
    rw [ih (fun d hd => h d (List.mem_cons_of_mem c hd))]
    rfl

/-- C5: both sanitizers are idempotent — the inbound HTML-stripping
sanitizer (`sanitizeInput`) and the outbound XSS escaper
(`sanitizeObject`) each leave an already-sanitized string unchanged, so no
double-escaping drift occurs. -/
theorem sanitize_idempotent (l : List Char) :
    sanitizeValue (sanitizeValue l) = sanitizeValue l ∧
    xssFilter (xssFilter l) = xssFilter l := by
  constructor
  · unfold sanitizeValue
    rw [filterAngles_eq_self _ (encodeEnt_no_angle (decodeEnt (stripTags l)))]
    rw [trimChars_encodeEnt]
    rw [stripTags_eq_self _
      (fun c hc => (encodeEnt_no_angle (trimChars (decodeEnt (stripTags l))) c hc).1)]
    rw [decodeEnt_encodeEnt]
    rw [filterAngles_eq_self _ (encodeEnt_no_angle (trimChars (decodeEnt (stripTags l))))]
    rw [trimChars_encodeEnt, trimChars_idem]
  · unfold xssFilter
    have hno : ∀ d ∈ (stripTags l).flatMap xssEscChar, d ≠ '<' ∧ d ≠ '>' := by
      intro d hd
      rw [List.mem_flatMap] at hd
      obtain ⟨c, _, hc⟩ := hd
      exact mem_xssEscChar_ne_angle c d hc
    rw [stripTags_eq_self _ (fun c hc => (hno c hc).1)]
    exact flatMap_xssEscChar_eq_self _ hno

/-! ### Rate limiter (src/middleware/security.js authLimiter / apiLimiter)

`express-rate-limit` keeps one counter per client key together with a reset
time one window after the first counted request; a request whose
incremented count exceeds `max` is answered 429 and not passed on; with
`skipSuccessfulRequests` (the auth class) the counter is decremented again
when a passed request completes without error.  Times are millisecond
timestamps. -/

/-- The window of both limiter classes: `15 * 60 * 1000` ms. -/
def windowMs : ℕ := 15 * 60 * 1000

/-- Per-client limiter state. -/
structure RLState where
  hits : ℕ
  resetAt : ℕ
deriving DecidableEq, Repr

/-- One request through a limiter with limit `limit`: start or reset the
window when expired, increment the count, allow iff the count stays within
the limit. -/
def rlHit (limit : ℕ) (st : Option RLState) (now : ℕ) : Bool × RLState :=
  let s0 : RLState :=
    match st with
    | some s => if s.resetAt ≤ now then ⟨0, now + windowMs⟩ else s
    | none => ⟨0, now + windowMs⟩
  let s1 : RLState := ⟨s0.hits + 1, s0.resetAt⟩
  (decide (s1.hits ≤ limit), s1)

/-- The limiter's HTTP effect: pass the request on, or answer 429. -/
def rlRespCode (allowed : Bool) : Option ℕ :=
  if allowed then none else some 429

/-- A run of requests through the api limiter (every request counted). -/
def rlRun (limit : ℕ) (st : Option RLState) : List ℕ → List Bool
  | [] => []
  | t :: ts =>
    let r := rlHit limit st t
    r.1 :: rlRun limit (some r.2) ts

/-- One request through the auth limiter (limit 10,
`skipSuccessfulRequests: true`): an allowed request that completes
successfully is uncounted again; denied requests (429 is an error status)
and failed requests stay counted. -/
def authStep (st : Option RLState) (t : ℕ) (success : Bool) : Bool × RLState :=
  let r := rlHit 10 st t
  if r.1 && success then (r.1, ⟨r.2.hits - 1, r.2.resetAt⟩) else r

/-- A run of requests through the auth limiter. -/
def authRun (st : Option RLState) : List (ℕ × Bool) → List Bool
  | [] => []
  | q :: qs =>
    let r := authStep st q.1 q.2
    r.1 :: authRun (some r.2) qs

/-- Splitting a mapped range at the front. -/
theorem range_map_succ_shift (f : ℕ → Bool) (n : ℕ) :
    (List.range (n + 1)).map f = f 0 :: (List.range n).map (fun i => f (i + 1)) := by
  rw [List.range_succ_eq_map]
  simp [List.map_map, Function.comp]

/-- Within an unexpired window, the i-th further request is allowed exactly
while the running count stays within the limit. -/
theorem rlRun_in_window (limit : ℕ) (ts : List ℕ) : ∀ (h resetAt : ℕ),
    (∀ t ∈ ts, t < resetAt) →
    rlRun limit (some ⟨h, resetAt⟩) ts =
      (List.range ts.length).map (fun i => decide (h + i + 1 ≤ limit)) := by
  induction ts with
  | nil => intro h resetAt _; rfl
  | cons t ts ih =>
    intro h resetAt hts
    have hlt : t < resetAt := hts t (List.mem_cons_self t ts)
    have hni : ¬ resetAt ≤ t := by omega
    simp only [rlRun, rlHit, hni, if_false, List.length_cons]
    rw [ih (h + 1) resetAt (fun u hu => hts u (List.mem_cons_of_mem t hu))]
    rw [range_map_succ_shift]
    congr 1
    apply List.map_congr_left
    intro a _
    have harith : h + 1 + a + 1 = h + (a + 1) + 1 := by omega
    rw [harith]

/-- Within an unexpired window, the i-th further failed auth request is
allowed exactly while the running count stays within the limit 10. -/
theorem authRun_in_window (qs : List (ℕ × Bool)) : ∀ (h resetAt : ℕ),
    (∀ q ∈ qs, q.1 < resetAt ∧ q.2 = false) →
    authRun (some ⟨h, resetAt⟩) qs =
      (List.range qs.length).map (fun i => decide (h + i + 1 ≤ 10)) := by
  induction qs with
  | nil => intro h resetAt _; rfl
  | cons q qs ih =>
    intro h resetAt hqs
    obtain ⟨hlt, hfail⟩ := hqs q (List.mem_cons_self q qs)
    have hni : ¬ resetAt ≤ q.1 := by omega
    have hstep : authStep (some ⟨h, resetAt⟩) q.1 q.2 =
        (decide (h + 1 ≤ 10), ⟨h + 1, resetAt⟩) := by
      simp [authStep, rlHit, hni, hfail]
    rw [show authRun (some ⟨h, resetAt⟩) (q :: qs) =
        (authStep (some ⟨h, resetAt⟩) q.1 q.2).1 ::
          authRun (some (authStep (some ⟨h, resetAt⟩) q.1 q.2).2) qs from rfl]
    rw [hstep]
    rw [ih (h + 1) resetAt (fun u hu => hqs u (List.mem_cons_of_mem q hu))]
    simp only [List.length_cons]
    rw [range_map_succ_shift]
    congr 1
    apply List.map_congr_left
    intro a _
    have harith : h + 1 + a + 1 = h + (a + 1) + 1 := by omega
    rw [harith]

/-- C8: for each limiter class, a window's requests are allowed exactly up
to the class limit (api: 100, all requests counted; auth: 10, only failed
requests counted since successful ones are uncounted again), the request
beyond the limit is answered 429, and a request after the window's expiry
is allowed again with a fresh count of 1. -/
theorem rate_limiter_window_behavior :
    (∀ (t0 : ℕ) (ts : List ℕ), (∀ t ∈ ts, t < t0 + windowMs) →
      rlRun 100 none (t0 :: ts) =
        (List.range (ts.length + 1)).map (fun i => decide (i + 1 ≤ 100))) ∧
    (∀ limit h resetAt now, now < resetAt →
      (rlHit limit (some ⟨h, resetAt⟩) now).1 = decide (h + 1 ≤ limit) ∧
      rlRespCode (rlHit limit (some ⟨h, resetAt⟩) now).1 =
        (if h + 1 ≤ limit then none else some 429)) ∧
    (∀ limit h resetAt now, resetAt ≤ now → 1 ≤ limit →
      (rlHit limit (some ⟨h, resetAt⟩) now).1 = true ∧
      (rlHit limit (some ⟨h, resetAt⟩) now).2 = ⟨1, now + windowMs⟩) ∧
    (∀ h resetAt now, now < resetAt → h + 1 ≤ 10 →
      (authStep (some ⟨h, resetAt⟩) now true).1 = true ∧
      (authStep (some ⟨h, resetAt⟩) now true).2 = ⟨h, resetAt⟩) ∧
    (∀ (t0 : ℕ) (qs : List (ℕ × Bool)), (∀ q ∈ qs, q.1 < t0 + windowMs ∧ q.2 = false) →
      authRun none ((t0, false) :: qs) =
        (List.range (qs.length + 1)).map (fun i => decide (i + 1 ≤ 10))) := by
  refine ⟨?_, ?_, ?_, ?_, ?_⟩
  · intro t0 ts hts
    have hstep : rlHit 100 none t0 = (decide (1 ≤ 100), ⟨1, t0 + windowMs⟩) := by
      simp [rlHit]
    rw [show rlRun 100 none (t0 :: ts) =
        (rlHit 100 none t0).1 :: rlRun 100 (some (rlHit 100 none t0).2) ts from rfl]
    rw [hstep]
    rw [rlRun_in_window 100 ts 1 (t0 + windowMs) hts]
    rw [range_map_succ_shift]
    congr 1
    apply List.map_congr_left
    intro a _
    have harith : 1 + a + 1 = a + 1 + 1 := by omega
    rw [harith]
  · intro limit h resetAt now hlt
    have hni : ¬ resetAt ≤ now := by omega
    constructor
    · simp [rlHit, hni]
    · simp only [rlHit, hni, if_false, rlRespCode]
      by_cases hle : h + 1 ≤ limit <;> simp [hle]
  · intro limit h resetAt now hge hpos
    constructor
    · simp [rlHit, hge]
      omega
    · simp [rlHit, hge]
  · intro h resetAt now hlt hle
    have hni : ¬ resetAt ≤ now := by omega
    constructor
    · simp [authStep, rlHit, hni, hle]
    · simp [authStep, rlHit, hni, hle]
  · intro t0 qs hqs
    have hstep : authStep none t0 false = (decide (1 ≤ 10), ⟨1, t0 + windowMs⟩) := by
      simp [authStep, rlHit]
    rw [show authRun none ((t0, false) :: qs) =
        (authStep none t0 false).1 :: authRun (some (authStep none t0 false).2) qs from rfl]
    rw [hstep]
    rw [authRun_in_window qs 1 (t0 + windowMs) hqs]
    rw [range_map_succ_shift]
    congr 1
    apply List.map_congr_left
    intro a _
    have harith : 1 + a + 1 = a + 1 + 1 := by omega
    rw [harith]

/-- Witness for C8 at concrete inputs: three api requests inside one window
are all allowed; an 11th counted auth request inside a window is answered
429; a request after window expiry is allowed with count 1; a successful
allowed auth request leaves the count unchanged; two failed auth requests
inside one window are both allowed. -/
theorem rate_limiter_window_behavior_witness :
    ((∀ t ∈ [1, 2], t < 0 + windowMs) ∧
      rlRun 100 none [0, 1, 2] = (List.range 3).map (fun i => decide (i + 1 ≤ 100))) ∧
    (rlRespCode (rlHit 10 (some ⟨10, 900000⟩) 5).1 = some 429) ∧
    ((rlHit 10 (some ⟨10, 900000⟩) 900001).1 = true ∧
      (rlHit 10 (some ⟨10, 900000⟩) 900001).2 = ⟨1, 900001 + windowMs⟩) ∧
    ((authStep (some ⟨3, 900000⟩) 5 true).2 = ⟨3, 900000⟩) ∧
    (authRun none [(0, false), (1, false)] =
      (List.range 2).map (fun i => decide (i + 1 ≤ 10))) := by
  refine ⟨⟨by decide, ?_⟩, ?_, ?_, ?_, ?_⟩
  · exact rate_limiter_window_behavior.1 0 [1, 2] (by decide)
  · exact ((rate_limiter_window_behavior.2.1 10 10 900000 5 (by decide)).2).trans (by decide)
  · exact rate_limiter_window_behavior.2.2.1 10 10 900000 900001 (by decide) (by decide)
  · exact (rate_limiter_window_behavior.2.2.2.1 3 900000 5 (by decide) (by decide)).2
  · exact rate_limiter_window_behavior.2.2.2.2 0 [(1, false)] (by decide)

end Web1
